import Mathlib

/-
Verification of the four-channel relay controller (src/src/main.cpp).

The firmware wires, for each of four channels:
  pushbutton (DigitalInputChange) → toggle LambdaConsumer → relay (DigitalOutput)
  relay → Repeat(10000 ms) → SignalK output (telemetry)
  relay → LambdaConsumer driving the status LED
  SKPutRequestListener(path) → LambdaConsumer setting relay and LED.

Pure wiring is embedded directly from main.cpp.  The framework primitives
(the debounce behaviour of the input stage and the periodic telemetry
repeater) are external library code not present under src/; those two
components are modelled from the spec and marked as such in their doc
comments.
-/

/-- SignalK paths of the four channels, from main.cpp lines 59-62. -/
def skPath : Fin 4 → String
  | 0 => "electrical.switches.light.cabin.state"
  | 1 => "electrical.switches.light.port.state"
  | 2 => "electrical.switches.light.starboard.state"
  | 3 => "electrical.switches.light.engine.state"

/-- Runtime state of one channel: the logical relay level held by the relay
DigitalOutput, and the level last written to the status-LED DigitalOutput
(`none` while the LED pin has never been written). -/
structure Channel where
  relay : Bool
  led : Option Bool
deriving DecidableEq

/-- `DigitalOutput::set` on a relay after the wiring of main.cpp lines
136-139 is in place: the relay stores the value and emits it to its
consumers, one of which writes the status LED (`led->set(state)`). -/
def relaySet (c : Channel) (v : Bool) : Channel :=
  { relay := v, led := some v }

/-- The per-button toggle LambdaConsumer (main.cpp lines 94-124): on a
pressed value it writes the negation of the current relay state via
`relay->set`; on a released value it does nothing. -/
def toggleHandler (c : Channel) (isPressed : Bool) : Channel :=
  if isPressed then relaySet c (!c.relay) else c

/-- The SKPutRequestListener consumer (main.cpp lines 142-148 and the three
analogous blocks): `relay->set(new_state)` followed by `led->set(new_state)`. -/
def putHandler (c : Channel) (v : Bool) : Channel :=
  let c1 := relaySet c v
  { c1 with led := some v }

/-- The status LED currently shows the relay state. -/
def ledMirrors (c : Channel) : Prop := c.led = some c.relay

/-- Channel state right after `setup()` returns: relay written to `1` (main.cpp
lines 80-83), LED pin never written (the relay→LED consumer is connected only
at lines 138-139, after the relay writes). -/
def startupChannel : Channel := { relay := true, led := none }

/-- The four channels of the controller. -/
def SystemState : Type := Fin 4 → Channel

/-- A raw or debounced button value arriving on channel `i` reaches only
channel `i`'s toggle LambdaConsumer (each button is connected to exactly one
consumer, main.cpp lines 94-124). -/
def pressOn (s : SystemState) (i : Fin 4) (v : Bool) : SystemState :=
  Function.update s i (toggleHandler (s i) v)

/-- An inbound PUT request with path `p` triggers exactly the listeners
registered on `p` (main.cpp lines 142, 163, 184, 205). -/
def putOn (s : SystemState) (p : String) (v : Bool) : SystemState :=
  fun j => if skPath j = p then putHandler (s j) v else s j

/-- All four channels in their post-`setup()` state. -/
def startupSystem : SystemState := fun _ => startupChannel

/-- State of `setup()` while it runs: per channel, the last value written to
the relay pin, the last value written to the LED pin (`none` = never
written), and whether the relay→LED LambdaConsumer is connected yet. -/
structure SetupState where
  relays : Fin 4 → Option Bool
  leds : Fin 4 → Option Bool
  ledConnected : Fin 4 → Bool

/-- Before any wiring: no pin written, no consumer connected. -/
def setup0 : SetupState :=
  { relays := fun _ => none, leds := fun _ => none, ledConnected := fun _ => false }

/-- `relayN->set(v)` during `setup()`: writes relay `i` and propagates to the
LED only when the relay→LED consumer is already connected. -/
def setRelayAt (s : SetupState) (i : Fin 4) (v : Bool) : SetupState :=
  { s with
    relays := Function.update s.relays i (some v),
    leds := if s.ledConnected i then Function.update s.leds i (some v) else s.leds }

/-- `relayN->connect_to(new LambdaConsumer ... led->set(state))`. -/
def connectLed (s : SetupState) (i : Fin 4) : SetupState :=
  { s with ledConnected := Function.update s.ledConnected i true }

/-- `setup()` in main.cpp order: the four `relayN->set(1)` calls (lines 80-83)
happen before any relay→LED connection (lines 138, 159, 180, 201). -/
def setupFinal : SetupState :=
  let s1 := setRelayAt (setRelayAt (setRelayAt (setRelayAt setup0 0 true) 1 true) 2 true) 3 true
  connectLed (connectLed (connectLed (connectLed s1 0) 1) 2) 3

/-- Modelled from the spec: the active-low relay driver (glossary: logical
true = de-energized/off).  The hardware driver is not part of src/. -/
def activeLowEnergized (logical : Bool) : Bool := !logical

/-- Distinct channels use distinct SignalK paths. -/
theorem skPath_inj : ∀ i j : Fin 4, i ≠ j → skPath i ≠ skPath j := by decide

/-- The runtime channel state used by the event-level theorems agrees with
what `setup()` leaves behind on every channel. -/
theorem startup_matches_setup :
    ∀ i : Fin 4, setupFinal.relays i = some startupChannel.relay ∧
      setupFinal.leds i = startupChannel.led := by decide

/-- C2: the toggle LambdaConsumer applied to a press (value true) sets the
relay to the negation of its current state, and applied to a release
(value false) leaves the relay state unchanged. -/
theorem c2_toggle_press_release (c : Channel) :
    (toggleHandler c true).relay = !c.relay ∧ (toggleHandler c false).relay = c.relay := by
  constructor <;> simp [toggleHandler, relaySet]

/-- C4: processing a remote PUT carrying `v` leaves the relay state equal to
`v` and the status LED written to `v`, whatever the prior channel state. -/
theorem c4_remote_set (c : Channel) (v : Bool) :
    (putHandler c v).relay = v ∧ (putHandler c v).led = some v := by
  constructor <;> simp [putHandler, relaySet]

/-- C9: two consecutive press events with nothing in between return the relay
to its starting state: the toggle is an involution on the relay state. -/
theorem c9_toggle_involution (c : Channel) :
    (toggleHandler (toggleHandler c true) true).relay = c.relay := by
  simp [toggleHandler, relaySet]

/-- C3 counterexample: a Toggle Handler invocation with a release event,
arriving in the post-`setup()` state, completes with the status LED (never
written) different from the relay state, refuting equality after every
Toggle Handler invocation. -/
theorem c3_counterexample : ¬ ledMirrors (toggleHandler startupChannel false) := by
  simp [ledMirrors, toggleHandler, startupChannel]

/-- C3 amended: after any Toggle Handler invocation with a press event and
after any Remote Command Listener invocation, relay and status LED are
equal; an invocation with a release event leaves the channel state exactly
as it was, so equality also holds after it whenever it held before. -/
theorem c3_led_mirrors_relay :
    (∀ c : Channel, ledMirrors (toggleHandler c true)) ∧
    (∀ (c : Channel) (v : Bool), ledMirrors (putHandler c v)) ∧
    (∀ c : Channel, toggleHandler c false = c) := by
  refine ⟨fun c => ?_, fun c v => ?_, fun c => rfl⟩ <;>
    simp [ledMirrors, toggleHandler, putHandler, relaySet]

/-- C6: at the end of `setup()` every relay has been written to logical true,
which under the active-low driver convention is the de-energized (off)
position. -/
theorem c6_relays_start_true :
    (∀ i : Fin 4, setupFinal.relays i = some true) ∧ activeLowEnergized true = false := by
  exact ⟨by decide, rfl⟩

/-- C7: each channel's SignalK path has the form
`electrical.switches.light.<zone>.state` with a nonempty zone, and the four
paths are pairwise distinct. -/
theorem c7_paths_unique :
    (∀ i : Fin 4, ∃ zone : String,
        zone ≠ "" ∧ skPath i = "electrical.switches.light." ++ zone ++ ".state") ∧
    [skPath 0, skPath 1, skPath 2, skPath 3].Pairwise (fun a b => a ≠ b) := by
  constructor
  · intro i
    fin_cases i
    · exact ⟨"cabin", by decide, by decide⟩
    · exact ⟨"port", by decide, by decide⟩
    · exact ⟨"starboard", by decide, by decide⟩
    · exact ⟨"engine", by decide, by decide⟩
  · decide

/-- C8: an event on channel `i` (a button value routed to channel `i`'s
toggle consumer, or a PUT addressed to channel `i`'s path) leaves every
other channel's relay and LED state untouched. -/
theorem c8_channel_frame (s : SystemState) (i j : Fin 4) (v : Bool) (h : i ≠ j) :
    (pressOn s i v) j = s j ∧ (putOn s (skPath i) v) j = s j := by
  constructor
  · exact Function.update_noteq (Ne.symm h) _ _
  · simp [putOn, skPath_inj j i (Ne.symm h)]

/-- C8 witness: a button event and a PUT on channel 0 leave channel 1
unchanged from the startup state. -/
theorem c8_channel_frame_witness :
    (0 : Fin 4) ≠ 1 ∧
    ((pressOn startupSystem 0 true) 1 = startupSystem 1 ∧
      (putOn startupSystem (skPath 0) true) 1 = startupSystem 1) :=
  ⟨by decide, c8_channel_frame startupSystem 0 1 true (by decide)⟩

/-- C10: `setup()` writes the relays (to true) strictly before connecting the
relay→LED consumers, so when it finishes every LED is still unwritten even
though all connections are in place, and in particular no LED equals its
channel's relay state yet. -/
theorem c10_led_undriven_at_start :
    (∀ i : Fin 4, setupFinal.leds i = none) ∧
    (∀ i : Fin 4, setupFinal.relays i = some true) ∧
    (∀ i : Fin 4, setupFinal.ledConnected i = true) ∧
    (∀ i : Fin 4, setupFinal.leds i ≠ setupFinal.relays i) := by
  exact ⟨by decide, by decide, by decide, by decide⟩

/-- State of the debouncer: the value last emitted downstream, the current
candidate raw value, and the time the candidate last changed. -/
structure DState where
  lastEmitted : Bool
  cand : Bool
  candSince : Nat
deriving DecidableEq

/-- Modelled from the spec: the debounce stage of the input path.  The
DigitalInputChange implementation is framework code not under src/; per the
spec it emits a value only when the raw signal has remained stable for at
least the 50 ms window since the last emitted value.  Input is the list of
timed raw samples (milliseconds, level); output is the list of timed
emitted transitions. -/
def drun : DState → List (Nat × Bool) → List (Nat × Bool)
  | _, [] => []
  | σ, (t, v) :: rest =>
    if v ≠ σ.cand then
      drun { σ with cand := v, candSince := t } rest
    else if v ≠ σ.lastEmitted ∧ σ.candSince + 50 ≤ t then
      (t, v) :: drun { lastEmitted := v, cand := v, candSince := σ.candSince } rest
    else
      drun σ rest

/-- Debouncer state at boot: line idle (false), nothing emitted yet. -/
def d0 : DState := { lastEmitted := false, cand := false, candSince := 0 }

/-- Two debounced transitions are at least one 50 ms window apart. -/
def gap50 (e f : Nat × Bool) : Prop := e.1 + 50 ≤ f.1

/-- The toggle consumer fed by the debounced stream: a press flips the relay,
a release leaves it. -/
def applyEmission (s : Bool) (e : Nat × Bool) : Bool := if e.2 then !s else s

/-- Bounce scenario: press at 10 ms, contact bounce releases at 20 ms, second
press at 30 ms (both presses within one 50 ms window), then the line holds. -/
def scenarioSamples : List (Nat × Bool) :=
  [(0, false), (10, true), (20, false), (30, true), (40, true),
   (50, true), (60, true), (70, true), (80, true), (90, true)]

/-- Invariant of a debouncer run over time-ordered samples: emissions are
pairwise a window apart, no emission precedes the pending candidate's
stability deadline, and from a quiescent state every emission postdates
some input sample by a full window. -/
theorem drun_gaps (σ : DState) (samples : List (Nat × Bool))
    (hmono : samples.Pairwise (fun a b => a.1 ≤ b.1))
    (hcs : ∀ a ∈ samples, σ.candSince ≤ a.1) :
    (drun σ samples).Pairwise gap50 ∧
    (∀ e ∈ drun σ samples, σ.candSince + 50 ≤ e.1) ∧
    (σ.cand = σ.lastEmitted → ∀ e ∈ drun σ samples, ∃ a ∈ samples, a.1 + 50 ≤ e.1) := by
  induction samples generalizing σ with
  | nil => simp [drun]
  | cons s rest ih =>
    obtain ⟨t, v⟩ := s
    rw [List.pairwise_cons] at hmono
    obtain ⟨hhead, htail⟩ := hmono
    have hct : σ.candSince ≤ t := hcs (t, v) (List.mem_cons_self _ _)
    have hcr : ∀ a ∈ rest, σ.candSince ≤ a.1 := fun a ha => hcs a (List.mem_cons_of_mem _ ha)
    by_cases h1 : v = σ.cand
    · by_cases h2 : v ≠ σ.lastEmitted ∧ σ.candSince + 50 ≤ t
      · -- stable long enough and different from the last emission: emit
        have hred : drun σ ((t, v) :: rest) =
            (t, v) :: drun { lastEmitted := v, cand := v, candSince := σ.candSince } rest := by
          rw [drun, if_neg (not_not_intro h1), if_pos h2]
        obtain ⟨ihp, ihb, ihq⟩ :=
          ih { lastEmitted := v, cand := v, candSince := σ.candSince } htail hcr
        have hrest : ∀ e ∈ drun { lastEmitted := v, cand := v, candSince := σ.candSince } rest,
            t + 50 ≤ e.1 := by
          intro e he
          obtain ⟨a, ha, hae⟩ := ihq rfl e he
          have : t ≤ a.1 := hhead a ha
          omega
        refine ⟨?_, ?_, ?_⟩
        · rw [hred, List.pairwise_cons]
          exact ⟨fun e he => hrest e he, ihp⟩
        · rw [hred]
          intro e he
          rcases List.mem_cons.mp he with rfl | he'
          · exact h2.2
          · exact ihb e he'
        · intro hq
          exact absurd (h1.trans hq) h2.1
      · -- no emission: state unchanged
        have hred : drun σ ((t, v) :: rest) = drun σ rest := by
          rw [drun, if_neg (not_not_intro h1), if_neg h2]
        obtain ⟨ihp, ihb, ihq⟩ := ih σ htail hcr
        refine ⟨hred ▸ ihp, hred ▸ ihb, fun hq e he => ?_⟩
        obtain ⟨a, ha, hae⟩ := ihq hq e (hred ▸ he)
        exact ⟨a, List.mem_cons_of_mem _ ha, hae⟩
    · -- raw value changed: restart the stability clock at time t
      have hred : drun σ ((t, v) :: rest) =
          drun { σ with cand := v, candSince := t } rest := by
        rw [drun, if_pos h1]
      obtain ⟨ihp, ihb, ihq⟩ :=
        ih { σ with cand := v, candSince := t } htail (fun a ha => hhead a ha)
      refine ⟨hred ▸ ihp, ?_, ?_⟩
      · rw [hred]
        intro e he
        have hte : t + 50 ≤ e.1 := ihb e he
        omega
      · rw [hred]
        intro _ e he
        exact ⟨(t, v), List.mem_cons_self _ _, ihb e he⟩

/-- A list whose elements are pairwise a window apart has at most one element
inside any half-open 50 ms window. -/
theorem gap50_window (l : List (Nat × Bool)) (hl : l.Pairwise gap50) (a : Nat) :
    (l.filter (fun e => decide (a ≤ e.1) && decide (e.1 < a + 50))).length ≤ 1 := by
  have hp : (l.filter (fun e => decide (a ≤ e.1) && decide (e.1 < a + 50))).Pairwise gap50 :=
    hl.sublist (List.filter_sublist _)
  match h : l.filter (fun e => decide (a ≤ e.1) && decide (e.1 < a + 50)) with
  | [] => rw [h]; simp
  | [x] => rw [h]; simp
  | x :: y :: tl =>
    rw [h]
    exfalso
    have hx : x ∈ l.filter (fun e => decide (a ≤ e.1) && decide (e.1 < a + 50)) := by
      rw [h]; exact List.mem_cons_self _ _
    have hy : y ∈ l.filter (fun e => decide (a ≤ e.1) && decide (e.1 < a + 50)) := by
      rw [h]; exact List.mem_cons_of_mem _ (List.mem_cons_self _ _)
    have hxw := (List.mem_filter.mp hx).2
    have hyw := (List.mem_filter.mp hy).2
    simp only [Bool.and_eq_true, decide_eq_true_eq] at hxw hyw
    rw [h, List.pairwise_cons] at hp
    have hgap : gap50 x y := hp.1 y (List.mem_cons_self _ _)
    unfold gap50 at hgap
    omega

/-- C1: over any time-ordered raw sample sequence, the debounced stream
delivered to the toggle consumer holds at most one transition inside any
50 ms window; in the concrete bounce scenario, two presses 20 ms apart yield
exactly one debounced transition, hence exactly one relay toggle. -/
theorem c1_debounce_at_most_one (samples : List (Nat × Bool))
    (hmono : samples.Pairwise (fun a b => a.1 ≤ b.1)) :
    (∀ a : Nat,
        ((drun d0 samples).filter
          (fun e => decide (a ≤ e.1) && decide (e.1 < a + 50))).length ≤ 1) ∧
    (drun d0 scenarioSamples).length = 1 ∧
    (drun d0 scenarioSamples).foldl applyEmission true = !true := by
  refine ⟨fun a => gap50_window _ ?_ a, by decide, by decide⟩
  exact (drun_gaps d0 samples hmono (fun s _ => Nat.zero_le _)).1

/-- C1 witness: the bounce scenario is time-ordered and its debounced stream
has at most one transition in the window starting at 0 ms. -/
theorem c1_debounce_at_most_one_witness :
    scenarioSamples.Pairwise (fun a b => a.1 ≤ b.1) ∧
    ((drun d0 scenarioSamples).filter
        (fun e => decide (0 ≤ e.1) && decide (e.1 < 0 + 50))).length ≤ 1 :=
  ⟨by decide, (c1_debounce_at_most_one scenarioSamples (by decide)).1 0⟩

/-- Modelled from the spec: the relay state as a function of time, given the
boot value and the time-ordered list of state changes.  The value at `t` is
the value of the last change at or before `t`. -/
def stateAt : Bool → List (Nat × Bool) → Nat → Bool
  | b, [], _ => b
  | b, (tc, vc) :: rest, t => if tc ≤ t then stateAt vc rest t else b

/-- Heartbeat instants of the periodic repeater over the first `n` periods:
one every 10000 ms (the `Repeat<bool, bool>(10000)` argument in main.cpp
lines 136, 157, 178, 199). -/
def heartbeatTimes (n : Nat) : List Nat :=
  (List.range n).map (fun k => 10000 * k)

/-- Modelled from the spec: the telemetry stream of one channel.  The
Repeat/SKOutput implementations are framework code not under src/; per the
spec the publisher emits one message at every relay state change and one at
every heartbeat instant, always carrying the relay state current at emission
time. -/
def telemetryMessages (b : Bool) (changes : List (Nat × Bool)) (n : Nat) :
    List (Nat × Bool) :=
  changes ++ (heartbeatTimes n).map (fun t => (t, stateAt b changes t))

/-- Every window of one heartbeat period inside the modelled horizon contains
a heartbeat instant. -/
theorem exists_heartbeat (a n : Nat) (h : a + 10000 ≤ 10000 * n) :
    ∃ k, k < n ∧ a ≤ 10000 * k ∧ 10000 * k < a + 10000 :=
  ⟨(a + 9999) / 10000, by omega, by omega, by omega⟩

/-- Before every change of a list, `stateAt` returns the fallback value. -/
theorem stateAt_of_forall_lt (b : Bool) (l : List (Nat × Bool)) (t : Nat)
    (h : ∀ c ∈ l, t < c.1) : stateAt b l t = b := by
  induction l with
  | nil => rfl
  | cons hd tl ih =>
    obtain ⟨tc, vc⟩ := hd
    have htc : t < tc := h (tc, vc) (List.mem_cons_self _ _)
    rw [stateAt, if_neg (by omega)]

/-- At the instant of a change in a strictly time-ordered change list, the
relay state equals the value carried by that change. -/
theorem stateAt_mem (b : Bool) (changes : List (Nat × Bool))
    (hsort : changes.Pairwise (fun c d => c.1 < d.1)) :
    ∀ c ∈ changes, stateAt b changes c.1 = c.2 := by
  induction changes generalizing b with
  | nil => simp
  | cons hd tl ih =>
    obtain ⟨tc, vc⟩ := hd
    rw [List.pairwise_cons] at hsort
    obtain ⟨hhd, htl⟩ := hsort
    intro c hc
    rcases List.mem_cons.mp hc with rfl | hc'
    · rw [stateAt, if_pos (Nat.le_refl _)]
      exact stateAt_of_forall_lt vc tl tc (fun d hd => hhd d hd)
    · have htc : tc < c.1 := hhd c hc'
      rw [stateAt, if_pos (Nat.le_of_lt htc)]
      exact ih vc htl c hc'

/-- C5: over a horizon of `n` heartbeat periods, the channel's telemetry
stream consists of exactly one message per relay state change plus one per
heartbeat; every 10-second window inside the horizon contains at least one
message; and when the changes are strictly time-ordered, every message
carries the relay state current at its emission instant, never a stale
value. -/
theorem c5_telemetry (b : Bool) (changes : List (Nat × Bool)) (n : Nat) :
    (telemetryMessages b changes n).length = changes.length + n ∧
    (∀ a : Nat, a + 10000 ≤ 10000 * n →
        ∃ m ∈ telemetryMessages b changes n, a ≤ m.1 ∧ m.1 < a + 10000) ∧
    (changes.Pairwise (fun c d => c.1 < d.1) →
        ∀ m ∈ telemetryMessages b changes n, m.2 = stateAt b changes m.1) := by
  refine ⟨?_, ?_, ?_⟩
  · simp [telemetryMessages, heartbeatTimes]
  · intro a h
    obtain ⟨k, hk, h1, h2⟩ := exists_heartbeat a n h
    refine ⟨(10000 * k, stateAt b changes (10000 * k)), ?_, h1, h2⟩
    refine List.mem_append_right _ ?_
    exact List.mem_map_of_mem _ (by
      unfold heartbeatTimes
      exact List.mem_map_of_mem _ (List.mem_range.mpr hk))
  · intro hsort m hm
    rcases List.mem_append.mp hm with hc | hh
    · exact (stateAt_mem b changes hsort m hc).symm
    · obtain ⟨t, _, rfl⟩ := List.mem_map.mp hh
      rfl

/-- C5 witness: with boot value true, one change at 5000 ms and a horizon of
two heartbeat periods, the window starting at 0 contains a message and every
message carries the current state. -/
theorem c5_telemetry_witness :
    (0 + 10000 ≤ 10000 * 2 ∧
      ∃ m ∈ telemetryMessages true [(5000, false)] 2, 0 ≤ m.1 ∧ m.1 < 0 + 10000) ∧
    (([((5000 : Nat), false)].Pairwise (fun c d => c.1 < d.1)) ∧
      ∀ m ∈ telemetryMessages true [(5000, false)] 2,
        m.2 = stateAt true [(5000, false)] m.1) :=
  ⟨⟨by omega, (c5_telemetry true [(5000, false)] 2).2.1 0 (by omega)⟩,
   ⟨by decide, (c5_telemetry true [(5000, false)] 2).2.2 (by decide)⟩⟩
